import Mathlib

/-!
Shallow embedding of the rsquery UDP query library (src/lib.rs, src/utils/mod.rs,
src/model/*) and proofs about its decode paths.

Modelling conventions:
* Bytes are `Nat`; received datagrams and wire strings are `List Nat`.
* Rust panics (slice-index panics, `unwrap`, `expect`) and returned `io::Error`s
  are both decode failures; fallible decoders return `Option` or `Except String`.
* `String::from_utf8_lossy` / `str::from_utf8` are modelled as the identity on
  byte lists: every payload the claims exercise is ASCII, where both are
  byte-faithful.
* The scratch receive buffer (`let mut buf = [0u8; N]; let len = socket.recv(&mut buf)`)
  is modelled by `scratchRecv`: the datagram followed by the untouched zero bytes.
-/

/-- ASCII byte list of a Lean string literal, for stating concrete payloads. -/
def strBytes (s : String) : List Nat := s.toList.map Char.toNat

/-- Rust `slice.split(|b| b == sep)` / `str.split(sep)`: split at every separator,
keeping empty tokens (a trailing separator yields a trailing empty token). -/
def splitSep (sep : Nat) : List Nat → List (List Nat)
  | [] => [[]]
  | b :: rest =>
    if b = sep then [] :: splitSep sep rest
    else
      match splitSep sep rest with
      | t :: ts => (b :: t) :: ts
      | [] => [[b]]

/-- Decimal digit bytes `'0'..'9'`. -/
def isDigitB (b : Nat) : Bool := 48 ≤ b && b ≤ 57

/-- Value of a most-significant-first decimal digit byte string. -/
def foldVal (s : List Nat) : Nat := s.foldl (fun a d => a * 10 + (d - 48)) 0

/-- Digits-only parse used by the integer `from_str` models: fails on an empty
string or any non-digit byte. -/
def parseDigitsNat (s : List Nat) : Option Nat :=
  if s ≠ [] ∧ s.all isDigitB then some (foldVal s) else none

/-- Rust `str::parse::<usize>()`: an optional leading `'+'`, then decimal digits;
overflow past `u64::MAX` is an error. -/
def parseUsizeB (s : List Nat) : Option Nat :=
  let t := match s with
    | 43 :: rest => rest
    | _ => s
  (parseDigitsNat t).bind fun n => if n < 2 ^ 64 then some n else none

/-- Rust `str::parse::<u16>()`: an optional leading `'+'`, then decimal digits;
overflow past `u16::MAX` is an error. -/
def parseU16B (s : List Nat) : Option Nat :=
  let t := match s with
    | 43 :: rest => rest
    | _ => s
  (parseDigitsNat t).bind fun n => if n < 2 ^ 16 then some n else none

/-- Rust `str::parse::<i32>()`: optional sign, decimal digits, with the i32
range check. -/
def parseI32 (s : List Nat) : Option Int :=
  match s with
  | [] => none
  | b :: rest =>
    if b = 43 then (parseDigitsNat rest).bind fun n =>
      if n ≤ 2 ^ 31 - 1 then some (n : Int) else none
    else if b = 45 then (parseDigitsNat rest).bind fun n =>
      if n ≤ 2 ^ 31 then some (-(n : Int)) else none
    else (parseDigitsNat s).bind fun n =>
      if n ≤ 2 ^ 31 - 1 then some (n : Int) else none

/-- The zero-initialised receive scratch buffer of `size` bytes after `recv`
wrote a datagram `dg` into its front. -/
def scratchRecv (size : Nat) (dg : List Nat) : List Nat :=
  dg.take size ++ List.replicate (size - dg.length) 0

/-- The byte count returned by `recv`: the datagram length, capped at the
scratch-buffer size. -/
def recvLen (size : Nat) (dg : List Nat) : Nat := min dg.length size

/-- Rust `&buf[a..b]`: `none` models the slice-bounds panic. -/
def sliceExcl (buf : List Nat) (a b : Nat) : Option (List Nat) :=
  if a ≤ b ∧ b ≤ buf.length then some ((buf.drop a).take (b - a)) else none

/-- Rust `&buf[a..=b]`. -/
def sliceIncl (buf : List Nat) (a b : Nat) : Option (List Nat) :=
  sliceExcl buf a (b + 1)

/-- Modelled from the spec: the `model/packet` module is not under `src/`.
§4.2/§4.3 give the query protocol magic `0xFEFD`; the source comment at the
handshake encoder states the same ("always 0xFEFD"). -/
def packetMAGIC : Nat := 0xFEFD

/-- Modelled from the spec: the `model/packet` module is not under `src/`.
§4.2 gives the Handshake packet type `0x09`; the source comment "(always 0x09)"
corroborates it. -/
def packetHANDSHAKE : Nat := 0x09

/-- Modelled from the spec: the `model/packet` module is not under `src/`.
§4.3 gives the Stat packet type `0x00`; the source error string
"awaiting 0x00 STAT" corroborates it. -/
def packetSTAT : Nat := 0x00

/-- Record of `model/raknet_pong.rs`: the record returned by `raknet_ping`. -/
structure RakNetPong where
  game_edition : List Nat
  motd : List (List Nat)
  protocol_version : Nat
  game_version : List Nat
  player_count : Nat
  max_player_count : Nat
  server_uid : List Nat
  game_mode : Option (List Nat)
  game_mode_integer : Option Nat
  port : Option Nat
  port_v6 : Option Nat
deriving Repr, DecidableEq

/-- The field-indexing phase of `Client::raknet_ping` (lib.rs:140-158), acting
on the `';'`-split field list. Index order follows Rust evaluation order:
`data[1]` for the motd vector, the `data.len() > 7` branch (`data[7]`,
`data[8]`), then the struct literal (`data[0]`, `data[2].parse()`, `data[3]`,
`data[4].parse()`, `data[5].parse()`, `data[6]`). An out-of-range index or a
failed parse is a panic, i.e. `none`. -/
def decodePongFields (data : List (List Nat)) : Option RakNetPong := do
  let m1 ← data[1]?
  let md ← if 7 < data.length then do
      let m2 ← data[7]?
      let g ← data[8]?
      pure ([m1, m2], some g)
    else
      pure ([m1], (none : Option (List Nat)))
  let ge ← data[0]?
  let pvs ← data[2]?
  let pv ← parseUsizeB pvs
  let gv ← data[3]?
  let pcs ← data[4]?
  let pc ← parseUsizeB pcs
  let mpcs ← data[5]?
  let mpc ← parseUsizeB mpcs
  let uid ← data[6]?
  pure { game_edition := ge, motd := md.1, protocol_version := pv,
         game_version := gv, player_count := pc, max_player_count := mpc,
         server_uid := uid, game_mode := md.2, game_mode_integer := none,
         port := none, port_v6 := none }

/-- Payload decoding of `Client::raknet_ping` (lib.rs:138-158): split the decoded
payload on `';'` (byte 59) and index the fields. -/
def decodePongBytes (payload : List Nat) : Option RakNetPong :=
  decodePongFields (splitSep 59 payload)

/-- Record of `model/short_query.rs`: the record returned by `short_query`. -/
structure ShortQuery where
  motd : List Nat
  gametype : List Nat
  map : List Nat
  players : Nat
  max_players : Nat
  host_port : Nat
  host_ip : List Nat
deriving Repr, DecidableEq

/-- Record of `model/long_query.rs`: the record returned by `long_query`. -/
structure LongQuery where
  server_software : List Nat
  plugins : List Nat
  version : List Nat
  whitelist : List Nat
  players : List (List Nat)
  player_count : Nat
  max_players : Nat
  game_name : List Nat
  game_mode : List Nat
  map_name : List Nat
  host_name : List Nat
  host_ip : List Nat
  host_port : Nat
deriving Repr, DecidableEq

/-- Model of `utils::read_nulltermed_str` (utils/mod.rs:15-19): `read_until(0x00)` takes
bytes up to and including the first null (or up to end of input), then the last
byte of what was read is dropped. On empty input the `temp.len()-1` slice bound
panics (`none`). Returns the decoded string and the remaining input. -/
def read_nulltermed_str : List Nat → Option (List Nat × List Nat)
  | [] => none
  | b :: rest =>
    if b = 0 then some ([], rest)
    else
      match read_nulltermed_str rest with
      | some (s, r) => some (b :: s, r)
      | none => some ([], [])

/-- Model of the `byteorder` call `read_u16::<LittleEndian>`: consume two bytes, low byte first. -/
def readU16LE : List Nat → Option (Nat × List Nat)
  | a :: b :: r => some (a + 256 * b, r)
  | _ => none

/-- Boolean prefix test used by `slice_index` (`buf[i..].starts_with(needle)`). -/
def startsWithB : List Nat → List Nat → Bool
  | _, [] => true
  | [], _ :: _ => false
  | a :: as, b :: bs => a == b && startsWithB as bs

/-- Model of `utils::slice_index` (utils/mod.rs:4-13). When the needle fits in
the buffer, the loop over `0..=buf.len() - needle.len()` returns the first
index at which `needle` occurs (`some (some i)`), or `None` after the loop
(`some none`). When the needle is longer than the buffer, the function panics:
the `buf.len() - needle.len()` usize subtraction underflows (and in release
builds the wrapped range makes `buf[i..]` an out-of-range slice); the outer
`none` models that panic. -/
def slice_index (buf needle : List Nat) : Option (Option Nat) :=
  if needle.length ≤ buf.length then
    some ((List.range (buf.length - needle.length + 1)).find? fun i =>
      startsWithB (buf.drop i) needle)
  else none

/-- Region split of `Client::long_query` (lib.rs:207-214, 231-232): the
key/value region is `&data[0..=pi]` when the player-section key occurs at `pi`
(all of `data` when the search ran and found nothing), and the player region is
`&data[pi+key.len()..data.len()-3]` (otherwise absent). `none` models the
panics: a `slice_index` panic on a payload shorter than the key, or a
slice-bounds panic of either region. -/
def longQueryRegions (data key : List Nat) :
    Option (List Nat × Option (List Nat)) :=
  match slice_index data key with
  | none => none
  | some none => some (data, none)
  | some (some pi) =>
    match sliceIncl data 0 pi, sliceExcl data (pi + key.length) (data.length - 3) with
    | some reg, some tmp => some (reg, some tmp)
    | _, _ => none

/-- The player-list task of `Client::long_query` (lib.rs:230-237): when a player
region exists, split it on null bytes; every token (empty ones included) is
pushed onto the player list. When the marker was absent nothing is pushed. -/
def playersOf : Option (List Nat) → List (List Nat)
  | none => []
  | some tmp => splitSep 0 tmp

/-- The token phase of the key/value task (lib.rs:216-219): split the key/value
region on null bytes and drop the final token when the count is odd. -/
def kvTokens (reg : List Nat) : List (List Nat) :=
  let arr := splitSep 0 reg
  if arr.length % 2 ≠ 0 then arr.dropLast else arr

/-- Consecutive `(key, value)` pairs of the alternating token list, as visited
by the `step_by(2)` loop (lib.rs:220-227). -/
def pairup : List (List Nat) → List (List Nat × List Nat)
  | k :: v :: rest => (k, v) :: pairup rest
  | _ => []

/-- Model of `HashMap::insert`: overwrite the value when the key is already present,
otherwise add the binding. -/
def mapInsert (m : List (List Nat × List Nat)) (k v : List Nat) :
    List (List Nat × List Nat) :=
  match m with
  | [] => [(k, v)]
  | (k0, v0) :: rest =>
    if k0 == k then (k0, v) :: rest else (k0, v0) :: mapInsert rest k v

/-- Model of `HashMap::get`: the value of the (unique) binding for `k`, if any. -/
def mapGet (m : List (List Nat × List Nat)) (k : List Nat) : Option (List Nat) :=
  match m with
  | [] => none
  | (k0, v0) :: rest => if k0 == k then some v0 else mapGet rest k

/-- The insert loop of the key/value task (lib.rs:220-227): fold the
`(key, value)` pairs into the map. -/
def buildMap (ps : List (List Nat × List Nat)) : List (List Nat × List Nat) :=
  ps.foldl (fun m kv => mapInsert m kv.1 kv.2) []

/-- The whole key/value task of `Client::long_query` on a region: tokens,
odd-drop, pairing, insert loop. -/
def kvMapOf (reg : List Nat) : List (List Nat × List Nat) :=
  buildMap (pairup (kvTokens reg))

/-- Model of `HashMap::get(..).expect(msg)`: the panic message is `msg` when the key is
absent. -/
def expectGet (m : List (List Nat × List Nat)) (k : List Nat) (msg : String) :
    Except String (List Nat) :=
  match mapGet m k with
  | some v => .ok v
  | none => .error msg

/-- Model of `..parse().expect(msg)` on a map value. -/
def expectParse (p : List Nat → Option Nat) (v : List Nat) (msg : String) :
    Except String Nat :=
  match p v with
  | some n => .ok n
  | none => .error msg

/-- Record assembly of `Client::long_query` (lib.rs:241-255): the `reader.get`
chain in struct-literal evaluation order, with the exact `expect` messages of
the source. -/
def buildLongQuery (m : List (List Nat × List Nat)) (players : List (List Nat)) :
    Except String LongQuery := do
  let se ← expectGet m (strBytes "server_engine") "Failed to find server_engine"
  let pl ← expectGet m (strBytes "plugins") "Failed to find plugins"
  let ver ← expectGet m (strBytes "version") "Failed to find version"
  let wl ← expectGet m (strBytes "whitelist") "Failed to find whitelist"
  let nps ← expectGet m (strBytes "numplayers") "Failed to find numplayers"
  let np ← expectParse parseUsizeB nps "Invalid Player Count!"
  let mps ← expectGet m (strBytes "maxplayers") "Failed to find maxplayers"
  let mp ← expectParse parseUsizeB mps "Invalid Max Player Count!"
  let gn ← expectGet m (strBytes "game_id") "Failed to find gamename"
  let gm ← expectGet m (strBytes "gametype") "Failed to find gametype"
  let mn ← expectGet m (strBytes "map") "Failed to find map"
  let hn ← expectGet m (strBytes "hostname") "Failed to find server_engine"
  let hi ← expectGet m (strBytes "hostip") "Failed to find hostip"
  let hps ← expectGet m (strBytes "hostport") "Failed to find server_engine"
  let hp ← expectParse parseU16B hps "Invalid Host Port!"
  pure { server_software := se, plugins := pl, version := ver, whitelist := wl,
         players, player_count := np, max_players := mp, game_name := gn,
         game_mode := gm, map_name := mn, host_name := hn, host_ip := hi,
         host_port := hp }

/-- The Pong payload slice of `Client::raknet_ping` (lib.rs:134-138):
`&buf[35..=len]` of the 65535-byte scratch buffer (`offline_msg_data.len()+19 = 35`). -/
def raknetPayloadSlice (dg : List Nat) : Option (List Nat) :=
  sliceIncl (scratchRecv 65535 dg) 35 (recvLen 65535 dg)

/-- The Full-Stat payload slice of `Client::long_query` (lib.rs:202-207):
`&buf[16..=len]` of the 65535-byte scratch buffer. -/
def longQueryDataSlice (dg : List Nat) : Option (List Nat) :=
  sliceIncl (scratchRecv 65535 dg) 16 (recvLen 65535 dg)

/-- Receive path of `Client::raknet_ping` (lib.rs:134-158): slice the payload out
of the scratch buffer (no packet-type check on this path) and decode its
semicolon-separated fields. -/
def raknetPingDecode (dg : List Nat) : Option RakNetPong :=
  match raknetPayloadSlice dg with
  | none => none
  | some payload => decodePongBytes payload

/-- Receive path of `Client::long_query` (lib.rs:202-258), parametrised by the
player-section key (`packet::PLAYER_KEY`, whose module is not under `src/`):
check `buf[0]` against the Stat type, slice `&buf[16..=len]`, split the
regions, run the key/value and player tasks, and assemble the record. -/
def longQueryDecode (dg key : List Nat) : Except String LongQuery :=
  let buf := scratchRecv 65535 dg
  if buf.headD 0 = packetSTAT then
    match longQueryDataSlice dg with
    | none => .error "panic: range end index out of range"
    | some data =>
      match longQueryRegions data key with
      | none => .error "panic: range end index out of range"
      | some (reg, ptmp) => buildLongQuery (kvMapOf reg) (playersOf ptmp)
  else .error "Unexpected packet was received while awaiting 0x00 STAT"

/-- Lift an `Option`-valued read to `Except`, tagging the panic or error
message of the corresponding Rust failure. -/
def orFail (o : Option α) (msg : String) : Except String α :=
  match o with
  | some a => .ok a
  | none => .error msg

/-- Receive path of `Client::short_query` (lib.rs:299-322): check `buf[0]` against
the Stat type, then read from a cursor over `&buf[5..len]`: five null-terminated
strings (the fourth and fifth parsed as `usize`), a little-endian `u16`, and a
final null-terminated string. -/
def shortQueryDecode (dg : List Nat) : Except String ShortQuery := do
  let buf := scratchRecv 65535 dg
  let len := recvLen 65535 dg
  if buf.headD 0 = packetSTAT then do
    let payload ← orFail (sliceExcl buf 5 len) "panic: slice index out of range"
    let (motd, r1) ← orFail (read_nulltermed_str payload) "panic: empty read"
    let (gametype, r2) ← orFail (read_nulltermed_str r1) "panic: empty read"
    let (mapStr, r3) ← orFail (read_nulltermed_str r2) "panic: empty read"
    let (playersStr, r4) ← orFail (read_nulltermed_str r3) "panic: empty read"
    let players ← orFail (parseUsizeB playersStr) "panic: Invalid digit"
    let (maxStr, r5) ← orFail (read_nulltermed_str r4) "panic: empty read"
    let maxPlayers ← orFail (parseUsizeB maxStr) "panic: Invalid digit"
    let (hostPort, r6) ← orFail (readU16LE r5) "failed to fill whole buffer"
    let (hostIp, _) ← orFail (read_nulltermed_str r6) "panic: empty read"
    pure { motd, gametype, map := mapStr, players, max_players := maxPlayers,
           host_port := hostPort, host_ip := hostIp }
  else .error "Unexpected packet was received while awaiting 0x00 STAT"

/-- Receive path of `Client::gen_challenge_token` (lib.rs:345-353): check `buf[0]`
against the Handshake type on the 16383-byte scratch buffer
(`u16::MAX >> 2 = 16383`), then parse `&buf[5..len-1]` as an ASCII-decimal
`i32`. -/
def genChallengeDecode (dg : List Nat) : Except String Int :=
  let buf := scratchRecv 16383 dg
  let len := recvLen 16383 dg
  if buf.headD 0 = packetHANDSHAKE then
    match sliceExcl buf 5 (len - 1) with
    | none => .error "panic: slice index out of range"
    | some s =>
      match parseI32 s with
      | some t => .ok t
      | none => .error "panic: Invalid Challenge Token Received"
  else .error "Wrong packet received perhaps an already opened session? (expected 0x01 Handshake)"

/-- The u32 two's-complement bit pattern of an `i32` value. -/
def twosComp32 (v : Int) : Nat := (v % 2 ^ 32).toNat

/-- Model of `byteorder` `write_u32/i32::<BigEndian>`: the byte sequence of a bit pattern. -/
def be32 (n : Nat) : List Nat :=
  [n / 2 ^ 24 % 256, n / 2 ^ 16 % 256, n / 2 ^ 8 % 256, n % 256]

/-- Send path of `Client::gen_challenge_token` (lib.rs:333-341): magic `0xFEFD`
big-endian, Handshake type, then `sid & 0x0F0F0F0F` as four big-endian bytes. -/
def encodeHandshake (sid : Int) : List Nat :=
  [packetMAGIC / 256, packetMAGIC % 256, packetHANDSHAKE] ++
    be32 (Nat.land (twosComp32 sid) 0x0F0F0F0F)

-- Equality on `Except` results, used to evaluate the decoders on concrete inputs.
deriving instance DecidableEq for Except

/-- Join of a name list with a single separator byte between consecutive names,
the inverse of `splitSep` used to state the player-list decode property. -/
def joinSep (sep : Nat) : List (List Nat) → List Nat
  | [] => []
  | [x] => x
  | x :: xs => x ++ (sep :: joinSep sep xs)

/-- Most-significant-first decimal digit bytes of `n`, with `fuel` bounding the
recursion depth (`fuel = n` suffices since the value shrinks by division). -/
def decDigitsAux : Nat → Nat → List Nat
  | 0, _ => []
  | fuel + 1, n => if n = 0 then [] else decDigitsAux fuel (n / 10) ++ [n % 10 + 48]

/-- ASCII decimal encoding of a natural number (`0` encodes as `"0"`). -/
def decDigits (n : Nat) : List Nat :=
  if n = 0 then [48] else decDigitsAux n n

/-- ASCII decimal encoding of an integer, with a leading `'-'` when negative:
the encoding a GS4 server uses for the challenge token in a Handshake
response. -/
def asciiDecInt (t : Int) : List Nat :=
  if t < 0 then 45 :: decDigits t.natAbs else decDigits t.toNat

/-- Boolean substring test: whether `sub` occurs contiguously in `hay`. -/
def containsTok (hay sub : List Nat) : Bool :=
  (List.range (hay.length + 1)).any fun i => startsWithB (hay.drop i) sub

/-- A Full-Stat key/value map holding every key `long_query` looks up except
`hostname`. -/
def noHostnameMap : List (List Nat × List Nat) :=
  [(strBytes "server_engine", strBytes "PocketMine"),
   (strBytes "plugins", strBytes "EssentialsX"),
   (strBytes "version", strBytes "1.18"),
   (strBytes "whitelist", strBytes "off"),
   (strBytes "numplayers", strBytes "2"),
   (strBytes "maxplayers", strBytes "20"),
   (strBytes "game_id", strBytes "MINECRAFTPE"),
   (strBytes "gametype", strBytes "SMP"),
   (strBytes "map", strBytes "world"),
   (strBytes "hostip", strBytes "127.0.0.1"),
   (strBytes "hostport", strBytes "19132")]

/-- The Pong payload of the spec's end-to-end scenario 1. -/
def pongScenarioPayload : List Nat :=
  strBytes "MCPE;My Server;422;1.18;5;20;1234567890;Survival;1;19132;19133"

/-! Helper lemmas shared by the claim theorems. -/

/-- Success of an `Option` bind splits into success of both steps. -/
theorem optBindEqSome {α β : Type} {x : Option α} {f : α → Option β} {b : β} :
    (x >>= f) = some b ↔ ∃ a, x = some a ∧ f a = some b := by
  cases x <;> simp

/-- Bind on an `Except` success steps into the continuation. -/
theorem exceptBindOk {α β : Type} (a : α) (f : α → Except String β) :
    (Except.ok a >>= f) = f a := rfl

/-- Reading a null-terminated string: a null-free prefix followed by a null
yields that prefix and the bytes after the null. -/
theorem read_nulltermed_str_spec (s rest : List Nat) (hs : 0 ∉ s) :
    read_nulltermed_str (s ++ (0 :: rest)) = some (s, rest) := by
  induction s with
  | nil => simp [read_nulltermed_str]
  | cons b bs ih =>
    have hb : b ≠ 0 := by intro h; exact hs (by simp [h])
    have hbs : 0 ∉ bs := fun h => hs (List.mem_cons_of_mem _ h)
    simp [read_nulltermed_str, hb, ih hbs]

/-- A datagram that fits in the scratch buffer is followed by the untouched
zero bytes. -/
theorem scratchRecv_eq (size : Nat) (dg : List Nat) (h : dg.length ≤ size) :
    scratchRecv size dg = dg ++ List.replicate (size - dg.length) 0 := by
  unfold scratchRecv
  rw [List.take_of_length_le h]

/-- The scratch buffer always has exactly `size` bytes. -/
theorem scratchRecv_length (size : Nat) (dg : List Nat) :
    (scratchRecv size dg).length = size := by
  simp [scratchRecv]
  omega

/-- Reading `buf[0]` of a nonempty scratch buffer: the first datagram byte, or
the untouched zero for an empty datagram. -/
theorem scratchRecv_headD (size : Nat) (dg : List Nat) (h : 0 < size) :
    (scratchRecv size dg).headD 0 = dg.headD 0 := by
  cases dg with
  | nil =>
    cases size with
    | zero => omega
    | succ n => simp [scratchRecv, List.replicate_succ]
  | cons b rest =>
    cases size with
    | zero => omega
    | succ n => simp [scratchRecv, List.take_succ_cons]

/-- A successful prefix test pins down the first `s.length` bytes. -/
theorem startsWithB_take : ∀ (l s : List Nat), startsWithB l s = true → l.take s.length = s
  | _, [], _ => by simp
  | [], b :: bs, h => by simp [startsWithB] at h
  | a :: as, b :: bs, h => by
    simp only [startsWithB, Bool.and_eq_true, beq_iff_eq] at h
    simp [h.1, startsWithB_take as bs h.2]

/-- Splitting a separator-free byte string yields that single token. -/
theorem splitSep_nosep (x : List Nat) (h : 0 ∉ x) : splitSep 0 x = [x] := by
  induction x with
  | nil => rfl
  | cons b bs ih =>
    have hb : b ≠ 0 := fun hh => h (by simp [hh])
    have hbs : 0 ∉ bs := fun hh => h (List.mem_cons_of_mem _ hh)
    simp [splitSep, hb, ih hbs]

/-- Splitting peels off a null-free token at a null boundary. -/
theorem splitSep_append_sep (x t : List Nat) (h : 0 ∉ x) :
    splitSep 0 (x ++ (0 :: t)) = x :: splitSep 0 t := by
  induction x with
  | nil => simp [splitSep]
  | cons b bs ih =>
    have hb : b ≠ 0 := fun hh => h (by simp [hh])
    have hbs : 0 ∉ bs := fun hh => h (List.mem_cons_of_mem _ hh)
    have hstep := ih hbs
    simp [splitSep, hb, hstep]

/-- Lookup after a `HashMap::insert`: the inserted key maps to the new value,
every other key is unchanged. -/
theorem mapGet_mapInsert (m : List (List Nat × List Nat)) (ki vi k : List Nat) :
    mapGet (mapInsert m ki vi) k = if ki == k then some vi else mapGet m k := by
  induction m with
  | nil => simp [mapInsert, mapGet]
  | cons p rest ih =>
    obtain ⟨a, b⟩ := p
    by_cases h1 : a = ki <;> by_cases h2 : a = k <;> by_cases h3 : ki = k <;>
      simp_all [mapInsert, mapGet, ih]

/-- Lookup after folding an insert loop over a pair list: the value of the last
pair carrying the key, or the prior map's binding when no pair carries it. -/
theorem mapGet_foldl_insert (ps : List (List Nat × List Nat))
    (m : List (List Nat × List Nat)) (k : List Nat) :
    mapGet (ps.foldl (fun acc kv => mapInsert acc kv.1 kv.2) m) k =
      ((ps.filter (fun p => p.1 == k)).getLast?).elim (mapGet m k) (fun p => some p.2) := by
  induction ps generalizing m with
  | nil => simp
  | cons q rest ih =>
    obtain ⟨k0, v0⟩ := q
    simp only [List.foldl_cons, ih (mapInsert m k0 v0), mapGet_mapInsert]
    by_cases hk : k0 = k
    · subst hk
      simp only [List.filter_cons, beq_self_eq_true, if_true]
      cases hfr : rest.filter (fun p => p.1 == k0) with
      | nil => simp [hfr]
      | cons z zs =>
        cases hz : (z :: zs).getLast? with
        | none => simp at hz
        | some w => simp [hfr, hz, List.getLast?_cons_cons]
    · have hfk : ((k0, v0).1 == k) = false := by simpa using hk
      simp [List.filter_cons, hfk, hk]

/-- Every byte produced by the decimal encoder is a digit byte. -/
theorem decDigitsAux_digits :
    ∀ (fuel n : Nat), ∀ b ∈ decDigitsAux fuel n, 48 ≤ b ∧ b ≤ 57
  | 0, _, b, hb => by simp [decDigitsAux] at hb
  | fuel + 1, n, b, hb => by
    by_cases hn : n = 0
    · simp [decDigitsAux, hn] at hb
    · rw [decDigitsAux, if_neg hn] at hb
      rcases List.mem_append.mp hb with h | h
      · exact decDigitsAux_digits fuel (n / 10) b h
      · have hb' : b = n % 10 + 48 := by simpa using h
        have := Nat.mod_lt n (show 0 < 10 by omega)
        omega

/-- Folding the digit-value accumulator over the decimal encoding recovers the
encoded number. -/
theorem decDigitsAux_foldl :
    ∀ (fuel n acc : Nat), n ≤ fuel →
      (decDigitsAux fuel n).foldl (fun a d => a * 10 + (d - 48)) acc =
        acc * 10 ^ (decDigitsAux fuel n).length + n
  | 0, n, acc, h => by
    have : n = 0 := by omega
    simp [decDigitsAux, this]
  | fuel + 1, n, acc, h => by
    by_cases hn : n = 0
    · simp [decDigitsAux, hn]
    · rw [decDigitsAux, if_neg hn]
      have hle : n / 10 ≤ fuel := by
        have := Nat.div_lt_self (show 0 < n by omega) (show 1 < 10 by omega)
        omega
      rw [List.foldl_append, decDigitsAux_foldl fuel (n / 10) acc hle]
      simp only [List.foldl_cons, List.foldl_nil, List.length_append,
        List.length_cons, List.length_nil]
      have hmod : 10 * (n / 10) + n % 10 = n := Nat.div_add_mod n 10
      have hsub : n % 10 + 48 - 48 = n % 10 := by omega
      rw [hsub, pow_succ]
      set P := 10 ^ (decDigitsAux fuel (n / 10)).length
      set q := n / 10
      set r := n % 10
      calc (acc * P + q) * 10 + r = acc * (P * 10) + (10 * q + r) := by ring
        _ = acc * (P * 10) + n := by rw [hmod]

/-- The decimal encoding of a positive number is nonempty. -/
theorem decDigitsAux_ne_nil (fuel n : Nat) (h1 : n ≤ fuel) (h2 : n ≠ 0) :
    decDigitsAux fuel n ≠ [] := by
  cases fuel with
  | zero => omega
  | succ f =>
    rw [decDigitsAux, if_neg h2]
    simp

/-- The digits-only parser inverts the decimal encoder. -/
theorem parseDigitsNat_decDigits (n : Nat) : parseDigitsNat (decDigits n) = some n := by
  by_cases hn : n = 0
  · simp [decDigits, hn]
    decide
  · rw [decDigits, if_neg hn]
    unfold parseDigitsNat
    rw [if_pos]
    · rw [foldVal, decDigitsAux_foldl n n 0 (le_refl n)]
      simp
    · constructor
      · exact decDigitsAux_ne_nil n n (le_refl n) hn
      · rw [List.all_eq_true]
        intro b hb
        have := decDigitsAux_digits n n b hb
        simp only [isDigitB, Bool.and_eq_true, decide_eq_true_eq]
        omega

/-- Numbers below `10 ^ k` encode in at most `k` digits. -/
theorem decDigitsAux_length_le :
    ∀ (fuel n k : Nat), n ≤ fuel → n < 10 ^ k → (decDigitsAux fuel n).length ≤ k
  | 0, n, k, _, _ => by simp [decDigitsAux]
  | fuel + 1, n, k, h1, h2 => by
    by_cases hn : n = 0
    · simp [decDigitsAux, hn]
    · rw [decDigitsAux, if_neg hn]
      cases k with
      | zero => simp at h2; omega
      | succ j =>
        have hle : n / 10 ≤ fuel := by
          have := Nat.div_lt_self (show 0 < n by omega) (show 1 < 10 by omega)
          omega
        have hlt : n / 10 < 10 ^ j := by
          rw [Nat.div_lt_iff_lt_mul (show 0 < 10 by omega)]
          calc n < 10 ^ (j + 1) := h2
            _ = 10 ^ j * 10 := by rw [pow_succ]
        have := decDigitsAux_length_le fuel (n / 10) j hle hlt
        simp only [List.length_append, List.length_cons, List.length_nil]
        omega

/-- Numbers below `10 ^ 10` encode in at most ten digit bytes. -/
theorem decDigits_length_le (n : Nat) (h : n < 10 ^ 10) : (decDigits n).length ≤ 10 := by
  by_cases hn : n = 0
  · simp [decDigits, hn]
  · rw [decDigits, if_neg hn]
    exact decDigitsAux_length_le n n 10 (le_refl n) h

/-- The decimal encoding starts with a digit byte. -/
theorem decDigits_cons (n : Nat) :
    ∃ b rest, decDigits n = b :: rest ∧ 48 ≤ b ∧ b ≤ 57 := by
  by_cases hn : n = 0
  · exact ⟨48, [], by simp [decDigits, hn], by omega, by omega⟩
  · rw [decDigits, if_neg hn]
    cases hd : decDigitsAux n n with
    | nil => exact absurd hd (decDigitsAux_ne_nil n n (le_refl n) hn)
    | cons b rest =>
      have := decDigitsAux_digits n n b (by rw [hd]; simp)
      exact ⟨b, rest, rfl, this.1, this.2⟩

/-- The `i32` string parser inverts the signed decimal encoder on the i32
range. -/
theorem parseI32_asciiDecInt (t : Int) (hlo : -(2 ^ 31) ≤ t) (hhi : t < 2 ^ 31) :
    parseI32 (asciiDecInt t) = some t := by
  by_cases ht : t < 0
  · rw [asciiDecInt, if_pos ht]
    simp only [parseI32]
    rw [if_neg (show ¬ (45 : Nat) = 43 by omega)]
    simp only [if_true]
    rw [parseDigitsNat_decDigits]
    simp only [Option.bind]
    rw [if_pos (show t.natAbs ≤ 2 ^ 31 by omega)]
    congr 1
    omega
  · rw [asciiDecInt, if_neg ht]
    obtain ⟨b, rest, hbr, hb1, hb2⟩ := decDigits_cons t.toNat
    rw [hbr]
    simp only [parseI32]
    rw [if_neg (show ¬ b = 43 by omega), if_neg (show ¬ b = 45 by omega), ← hbr,
      parseDigitsNat_decDigits]
    simp only [Option.bind]
    rw [if_pos (show t.toNat ≤ 2 ^ 31 - 1 by omega)]
    congr 1
    omega

/-- The signed decimal encoding of an i32 value takes at most eleven bytes. -/
theorem asciiDecInt_length_le (t : Int) (hlo : -(2 ^ 31) ≤ t) (hhi : t < 2 ^ 31) :
    (asciiDecInt t).length ≤ 11 := by
  have hpow : (2 : Nat) ^ 31 < 10 ^ 10 := by norm_num
  by_cases ht : t < 0
  · rw [asciiDecInt, if_pos ht]
    have habs : t.natAbs ≤ 2 ^ 31 := by omega
    have := decDigits_length_le t.natAbs (by omega)
    simp only [List.length_cons]
    omega
  · rw [asciiDecInt, if_neg ht]
    have htn : t.toNat ≤ 2 ^ 31 := by omega
    have := decDigits_length_le t.toNat (by omega)
    omega

/-- An inclusive slice `buf[a..=len]` of the scratch buffer after receiving a
datagram shorter than the buffer: the datagram's tail from `a` plus one zero
byte of untouched scratch. -/
theorem sliceIncl_scratch (size a : Nat) (dg : List Nat)
    (ha : a ≤ dg.length) (hlt : dg.length < size) :
    sliceIncl (scratchRecv size dg) a (recvLen size dg) =
      some (dg.drop a ++ [0]) := by
  have hle : dg.length ≤ size := by omega
  have hrl : recvLen size dg = dg.length := by
    simp only [recvLen]
    omega
  rw [hrl]
  unfold sliceIncl sliceExcl
  rw [scratchRecv_eq _ _ hle]
  rw [if_pos]
  · have hda : (dg ++ List.replicate (size - dg.length) 0).drop a =
        dg.drop a ++ List.replicate (size - dg.length) 0 := by
      rw [List.drop_append_of_le_length ha]
    rw [hda]
    have hlen : dg.length + 1 - a = (dg.drop a).length + 1 := by
      rw [List.length_drop]
      omega
    rw [hlen, List.take_append 1, List.take_replicate]
    rw [Nat.min_eq_left (by omega), List.replicate_one]
  · constructor
    · omega
    · rw [List.length_append, List.length_replicate]
      omega

/-- An inclusive slice `buf[a..=len]` is out of bounds when the datagram fills
the whole scratch buffer. -/
theorem sliceIncl_scratch_oob (size a : Nat) (dg : List Nat)
    (h : size ≤ dg.length) :
    sliceIncl (scratchRecv size dg) a (recvLen size dg) = none := by
  have hrl : recvLen size dg = size := by
    simp only [recvLen]
    omega
  rw [hrl]
  unfold sliceIncl sliceExcl
  rw [if_neg]
  rw [scratchRecv_length]
  omega

/-! Claim theorems. -/

/-- C1: for every decoded Pong payload, the decode fails when fewer than 7
semicolon-delimited fields are present; a successful decode of a payload with
exactly 7 fields has `game_mode = none` and a single motd line; a successful
decode of a payload with 9 or more fields has field 7 appended as a second
motd line and `game_mode = some (field 8)`. -/
theorem raknet_pong_field_arity (payload : List Nat) :
    ((splitSep 59 payload).length < 7 → decodePongBytes payload = none) ∧
    (∀ r, decodePongBytes payload = some r → (splitSep 59 payload).length = 7 →
      r.game_mode = none ∧ r.motd.length = 1) ∧
    (∀ r, decodePongBytes payload = some r → 9 ≤ (splitSep 59 payload).length →
      r.motd = [((splitSep 59 payload)[1]?).getD [], ((splitSep 59 payload)[7]?).getD []] ∧
      r.game_mode = (splitSep 59 payload)[8]?) := by
  refine ⟨?_, ?_, ?_⟩
  · intro hlt
    cases hd : decodePongBytes payload with
    | none => rfl
    | some r =>
      exfalso
      have h : decodePongFields (splitSep 59 payload) = some r := hd
      simp only [decodePongFields, optBindEqSome, Option.pure_def, Option.some.injEq,
        show ¬ 7 < (splitSep 59 payload).length by omega, if_false] at h
      obtain ⟨m1, h1, md, hmd, ge, h0, pvs, h2, pv, hpv, gv, h3, pcs, h4, pc, hpc,
        mpcs, h5, mpc, hmp, uid, h6, hr⟩ := h
      have h6' := (List.getElem?_eq_some_iff.mp h6).1
      omega
  · intro r hd hlen
    have h : decodePongFields (splitSep 59 payload) = some r := hd
    simp only [decodePongFields, optBindEqSome, Option.pure_def, Option.some.injEq,
      show ¬ 7 < (splitSep 59 payload).length by omega, if_false] at h
    obtain ⟨m1, h1, md, hmd, ge, h0, pvs, h2, pv, hpv, gv, h3, pcs, h4, pc, hpc,
      mpcs, h5, mpc, hmp, uid, h6, hr⟩ := h
    subst hmd
    rw [← hr]
    exact ⟨rfl, rfl⟩
  · intro r hd hlen
    have h : decodePongFields (splitSep 59 payload) = some r := hd
    simp only [decodePongFields, optBindEqSome, Option.pure_def, Option.some.injEq,
      show 7 < (splitSep 59 payload).length by omega, if_true] at h
    obtain ⟨m1, h1, m2, h7, g, h8, md, hmd, ge, h0, pvs, h2, pv, hpv, gv, h3, pcs, h4,
      pc, hpc, mpcs, h5, mpc, hmp, uid, h6, hr⟩ := h
    subst hmd
    rw [← hr]
    simp [h1, h7, h8]

/-- C1 witness: the three cases of `raknet_pong_field_arity` at concrete
payloads with 3, 7 and 10 fields. -/
theorem raknet_pong_field_arity_sample :
    decodePongBytes (strBytes "a;b;c") = none ∧
    (decodePongBytes (strBytes "MCPE;line;1;v;2;3;uid")).elim True
      (fun r => r.game_mode = none ∧ r.motd.length = 1) ∧
    (decodePongBytes (strBytes "E;L1;1;v;2;3;uid;L2;Creative;x")).elim True
      (fun r => r.game_mode = some (strBytes "Creative")) := by
  refine ⟨(raknet_pong_field_arity _).1 (by decide), ?_, ?_⟩
  · cases hd : decodePongBytes (strBytes "MCPE;line;1;v;2;3;uid") with
    | none => trivial
    | some r => exact (raknet_pong_field_arity _).2.1 r hd (by decide)
  · cases hd : decodePongBytes (strBytes "E;L1;1;v;2;3;uid;L2;Creative;x") with
    | none => trivial
    | some r =>
      have h := ((raknet_pong_field_arity _).2.2 r hd (by decide)).2
      simp only [Option.elim]
      rw [h]
      decide

/-- C2 counterexample: decoding the scenario payload yields
`game_mode = some "1"` (field 8 is `"1"`), not `some "Survival"` as the claim
states — `"Survival"` sits at field index 7, which the code appends to the
motd. -/
theorem raknet_pong_scenario_game_mode_cex :
    (decodePongBytes pongScenarioPayload).map RakNetPong.game_mode
        = some (some (strBytes "1")) ∧
      some (some (strBytes "1")) ≠ some (some (strBytes "Survival")) := by
  refine ⟨by decide, by decide⟩

/-- C2 (amended): decoding the scenario payload yields
`game_edition = "MCPE"`, `player_count = 5`, `max_player_count = 20`,
`motd = ["My Server", "Survival"]` and `game_mode = some "1"`. -/
theorem raknet_pong_scenario_decode :
    decodePongBytes pongScenarioPayload = some
      { game_edition := strBytes "MCPE",
        motd := [strBytes "My Server", strBytes "Survival"],
        protocol_version := 422, game_version := strBytes "1.18",
        player_count := 5, max_player_count := 20,
        server_uid := strBytes "1234567890", game_mode := some (strBytes "1"),
        game_mode_integer := none, port := none, port_v6 := none } := by
  decide

/-- C3: on a Basic-Stat response with leading byte `0x00`, `short_query` reads
from offset 5 five null-terminated strings in the order motd, game type, map,
players (parsed as an unsigned integer), max players (parsed as an unsigned
integer), then a little-endian `u16` host port, then a final null-terminated
host ip, and returns exactly these values. -/
theorem short_query_fixed_field_order
    (h1 h2 h3 h4 lo hi n1 n2 : Nat) (m g mp p1 p2 ip : List Nat)
    (hm : 0 ∉ m) (hg : 0 ∉ g) (hmp : 0 ∉ mp) (hp1 : 0 ∉ p1) (hp2 : 0 ∉ p2) (hip : 0 ∉ ip)
    (hn1 : parseUsizeB p1 = some n1) (hn2 : parseUsizeB p2 = some n2)
    (hlen : (0 :: h1 :: h2 :: h3 :: h4 ::
        (m ++ (0 :: (g ++ (0 :: (mp ++ (0 :: (p1 ++ (0 :: (p2 ++ (0 ::
          (lo :: hi :: (ip ++ [0]))))))))))))).length ≤ 65535) :
    shortQueryDecode (0 :: h1 :: h2 :: h3 :: h4 ::
        (m ++ (0 :: (g ++ (0 :: (mp ++ (0 :: (p1 ++ (0 :: (p2 ++ (0 ::
          (lo :: hi :: (ip ++ [0])))))))))))))
      = .ok { motd := m, gametype := g, map := mp, players := n1, max_players := n2,
              host_port := lo + 256 * hi, host_ip := ip } := by
  set tail : List Nat := m ++ (0 :: (g ++ (0 :: (mp ++ (0 :: (p1 ++ (0 :: (p2 ++ (0 ::
    (lo :: hi :: (ip ++ [0]))))))))))) with htail
  set dg : List Nat := 0 :: h1 :: h2 :: h3 :: h4 :: tail with hdg
  have hlen' : recvLen 65535 dg = dg.length := by
    simp only [recvLen]
    omega
  have hbuf : scratchRecv 65535 dg = dg ++ List.replicate (65535 - dg.length) 0 :=
    scratchRecv_eq _ _ hlen
  have hhead : (scratchRecv 65535 dg).headD 0 = 0 := by
    rw [hbuf, hdg]
    rfl
  have hslice : sliceExcl (scratchRecv 65535 dg) 5 (recvLen 65535 dg) = some tail := by
    rw [hbuf, hlen', sliceExcl]
    rw [if_pos]
    · have hd5 : ((dg ++ List.replicate (65535 - dg.length) 0).drop 5) =
          tail ++ List.replicate (65535 - dg.length) 0 := by
        rw [hdg]
        simp [List.drop_append]
      rw [hd5]
      have hteq : dg.length - 5 = tail.length := by rw [hdg]; simp
      rw [hteq]
      rw [List.take_left tail (List.replicate (65535 - dg.length) 0)]
    · constructor
      · rw [hdg]; simp
      · simp [List.length_append]
  have hip' : read_nulltermed_str (ip ++ [0]) = some (ip, []) :=
    read_nulltermed_str_spec ip [] hip
  simp only [shortQueryDecode, hhead, packetSTAT, if_pos, hslice, orFail, htail,
    exceptBindOk,
    read_nulltermed_str_spec _ _ hm, read_nulltermed_str_spec _ _ hg,
    read_nulltermed_str_spec _ _ hmp, read_nulltermed_str_spec _ _ hp1,
    read_nulltermed_str_spec _ _ hp2, hn1, hn2, readU16LE, hip']
  rfl

/-- C3 witness: `short_query_fixed_field_order` at a concrete well-formed
Basic-Stat response. -/
theorem short_query_fixed_field_order_sample :
    shortQueryDecode (0 :: 1 :: 2 :: 3 :: 4 ::
        (strBytes "A MOTD" ++ (0 :: (strBytes "SMP" ++ (0 :: (strBytes "world" ++
          (0 :: (strBytes "2" ++ (0 :: (strBytes "20" ++ (0 ::
          (77 :: 1 :: (strBytes "127.0.0.1" ++ [0])))))))))))))
      = .ok { motd := strBytes "A MOTD", gametype := strBytes "SMP",
              map := strBytes "world", players := 2, max_players := 20,
              host_port := 77 + 256 * 1, host_ip := strBytes "127.0.0.1" } :=
  short_query_fixed_field_order 1 2 3 4 77 1 2 20
    (strBytes "A MOTD") (strBytes "SMP") (strBytes "world") (strBytes "2")
    (strBytes "20") (strBytes "127.0.0.1")
    (by decide) (by decide) (by decide) (by decide) (by decide) (by decide)
    (by decide) (by decide) (by decide)

/-- C4: evaluating the record assembly on a Full-Stat key/value map holding
every looked-up key except `hostname`: the decode is a single complete failure
(no partial record), but its message reads "Failed to find server_engine" — it
does not name the missing key `hostname`, contradicting the claim (the same
copy-paste slip affects `hostport`, and `game_id` reports "gamename"). -/
theorem long_query_missing_hostname_bug :
    mapGet noHostnameMap (strBytes "hostname") = none ∧
    buildLongQuery noHostnameMap [] = .error "Failed to find server_engine" ∧
    containsTok (strBytes "Failed to find server_engine") (strBytes "hostname") = false := by
  refine ⟨by decide, by decide, by decide⟩

/-- C5 counterexample: on the one-byte payload `[65]` with the two-byte
player-section key `[0, 1]`, the marker is absent (`containsTok` is false),
yet the decode does not treat the whole payload as the key/value region: the
payload is shorter than the key, so the index search panics (the
`buf.len() - needle.len()` underflow / out-of-range slice) and the region
split fails instead of yielding `(data, no players)`. -/
theorem long_query_region_split_short_payload_cex :
    containsTok [65] [0, 1] = false ∧
    longQueryRegions [65] [0, 1] = none ∧
    longQueryRegions [65] [0, 1] ≠ some ([65], none) := by
  refine ⟨by decide, by decide, by decide⟩

/-- C5 (amended): when the player-section key occurs at index `pi` (and the
regions fit), the key/value region is the inclusive byte range `[0, pi]` and
the player region is the bytes after the key up to `data.len() - 3`; the two
regions are disjoint index ranges (`pi + 1 ≤ pi + key.len`), so the key/value
map and the player list draw from non-overlapping bytes; when the marker
search completes without finding the key, the whole payload is the key/value
region and the player list is empty; a payload shorter than the key makes the
index search itself panic — a decode failure, not a whole-payload key/value
decode. -/
theorem long_query_region_split (data key : List Nat) :
    (∀ pi, key ≠ [] → slice_index data key = some (some pi) →
      pi + key.length ≤ data.length - 3 →
      (data.drop pi).take key.length = key ∧
      longQueryRegions data key =
        some (data.take (pi + 1),
          some ((data.drop (pi + key.length)).take (data.length - 3 - (pi + key.length)))) ∧
      pi + 1 ≤ pi + key.length) ∧
    (slice_index data key = some none →
      longQueryRegions data key = some (data, none) ∧
      playersOf none = ([] : List (List Nat))) ∧
    (data.length < key.length →
      slice_index data key = none ∧ longQueryRegions data key = none) := by
  refine ⟨?_, ?_, ?_⟩
  · intro pi hk hfind hfit
    have hkpos : 0 < key.length := List.length_pos.mpr hk
    have hklen : key.length ≤ data.length := by
      by_contra hgt
      rw [slice_index, if_neg (by omega)] at hfind
      exact Option.noConfusion hfind
    have hfind' : (List.range (data.length - key.length + 1)).find?
        (fun i => startsWithB (data.drop i) key) = some pi := by
      rw [slice_index, if_pos hklen] at hfind
      exact Option.some.inj hfind
    have hsw : startsWithB (data.drop pi) key = true := by
      have h := List.find?_some hfind'
      simpa using h
    have hmark : (data.drop pi).take key.length = key := startsWithB_take _ _ hsw
    have hle : data.length - 3 ≤ data.length := Nat.sub_le _ _
    have hpi1 : pi + 1 ≤ data.length := by omega
    refine ⟨hmark, ?_, by omega⟩
    unfold longQueryRegions
    rw [hfind]
    have h1 : sliceIncl data 0 pi = some (data.take (pi + 1)) := by
      unfold sliceIncl sliceExcl
      rw [if_pos ⟨Nat.zero_le _, hpi1⟩]
      simp
    have h2 : sliceExcl data (pi + key.length) (data.length - 3) =
        some ((data.drop (pi + key.length)).take (data.length - 3 - (pi + key.length))) := by
      unfold sliceExcl
      rw [if_pos ⟨hfit, hle⟩]
    simp [h1, h2]
  · intro hnone
    unfold longQueryRegions
    rw [hnone]
    exact ⟨rfl, rfl⟩
  · intro hshort
    have hsi : slice_index data key = none := by
      rw [slice_index, if_neg (by omega)]
    refine ⟨hsi, ?_⟩
    unfold longQueryRegions
    rw [hsi]

/-- C5 witness: `long_query_region_split` at a concrete payload where the key
`[0, 1]` occurs at index 4, at a searchable payload without the key, and at a
payload shorter than the key. -/
theorem long_query_region_split_sample :
    longQueryRegions [65, 0, 66, 0, 0, 1, 67, 0, 9, 9, 9] [0, 1] =
      some ([65, 0, 66, 0, 0], some [67, 0]) ∧
    longQueryRegions [65, 66, 67] [0, 1] = some ([65, 66, 67], none) ∧
    longQueryRegions [9] [0, 1] = none := by
  refine ⟨?_, ?_, ?_⟩
  · have h := (long_query_region_split [65, 0, 66, 0, 0, 1, 67, 0, 9, 9, 9] [0, 1]).1 4
      (by decide) (by decide) (by decide)
    rw [h.2.1]
    decide
  · exact ((long_query_region_split [65, 66, 67] [0, 1]).2.1 (by decide)).1
  · exact ((long_query_region_split [9] [0, 1]).2.2 (by decide)).2

/-- C6 counterexample: on the player region `"Timmy\x00"`, which ends in a null
delimiter, `long_query`'s player split keeps the trailing empty token in the
final list — the code never filters empty tokens. -/
theorem long_query_players_trailing_empty_cex :
    playersOf (some (strBytes "Timmy" ++ [0])) = [strBytes "Timmy", []] ∧
    [] ∈ playersOf (some (strBytes "Timmy" ++ [0])) := by
  refine ⟨by decide, by decide⟩

/-- C6 (amended): `long_query` splits the player region on null bytes into the
name list in received order: a region of null-free names joined by single null
separators decodes to exactly those names (no empty tokens arise because the
region slicing already cut the trailing terminator bytes), while a region that
still ends in a null delimiter decodes to the names plus a trailing empty
token, which is not excluded. -/
theorem long_query_players_split_join (names : List (List Nat))
    (h : ∀ s ∈ names, 0 ∉ s) (h2 : names ≠ []) :
    playersOf (some (joinSep 0 names)) = names ∧
    playersOf (some (joinSep 0 names ++ [0])) = names ++ [[]] := by
  induction names with
  | nil => exact absurd rfl h2
  | cons x xs ih =>
    have hx : 0 ∉ x := h x (by simp)
    cases xs with
    | nil =>
      constructor
      · show splitSep 0 x = [x]
        exact splitSep_nosep x hx
      · show splitSep 0 (x ++ [0]) = [x, []]
        rw [show x ++ [0] = x ++ (0 :: []) from rfl, splitSep_append_sep x [] hx]
        rfl
    | cons y ys =>
      have hxs : ∀ s ∈ y :: ys, 0 ∉ s := fun s hs => h s (List.mem_cons_of_mem _ hs)
      have ihr := ih hxs (by simp)
      constructor
      · show splitSep 0 (x ++ (0 :: joinSep 0 (y :: ys))) = x :: y :: ys
        rw [splitSep_append_sep _ _ hx]
        rw [show splitSep 0 (joinSep 0 (y :: ys)) = playersOf (some (joinSep 0 (y :: ys))) from rfl,
          ihr.1]
      · show splitSep 0 ((x ++ (0 :: joinSep 0 (y :: ys))) ++ [0]) = (x :: y :: ys) ++ [[]]
        rw [List.append_assoc, List.cons_append, splitSep_append_sep _ _ hx]
        rw [show splitSep 0 (joinSep 0 (y :: ys) ++ [0]) =
          playersOf (some (joinSep 0 (y :: ys) ++ [0])) from rfl, ihr.2]
        rfl

/-- C6 witness: `long_query_players_split_join` at the two-name region
`"Timmy\x00Bobby2454"`, with and without a trailing delimiter. -/
theorem long_query_players_split_join_sample :
    playersOf (some (joinSep 0 [strBytes "Timmy", strBytes "Bobby2454"])) =
      [strBytes "Timmy", strBytes "Bobby2454"] ∧
    playersOf (some (joinSep 0 [strBytes "Timmy", strBytes "Bobby2454"] ++ [0])) =
      [strBytes "Timmy", strBytes "Bobby2454", []] := by
  have h := long_query_players_split_join [strBytes "Timmy", strBytes "Bobby2454"]
    (by decide) (by decide)
  exact ⟨h.1, by rw [h.2]; rfl⟩

/-- C7: when the key/value region splits into an odd number of null-separated
tokens, exactly the final token is dropped, the remaining tokens pair up as
alternating keys and values, the insert loop completes without error, and the
resulting map is last-write-wins: looking up `k` yields the value of the last
pair whose key is `k`. -/
theorem long_query_kv_odd_drop_last_write_wins (reg k : List Nat)
    (hodd : (splitSep 0 reg).length % 2 = 1) :
    kvTokens reg = (splitSep 0 reg).dropLast ∧
    mapGet (kvMapOf reg) k =
      (((pairup ((splitSep 0 reg).dropLast)).filter (fun p => p.1 == k)).getLast?).map
        Prod.snd := by
  have htok : kvTokens reg = (splitSep 0 reg).dropLast := by
    unfold kvTokens
    rw [if_pos (by omega)]
  refine ⟨htok, ?_⟩
  unfold kvMapOf buildMap
  rw [htok, mapGet_foldl_insert]
  cases (pairup ((splitSep 0 reg).dropLast)).filter (fun p => p.1 == k) |>.getLast? with
  | none => rfl
  | some z => rfl

/-- C7 witness: `long_query_kv_odd_drop_last_write_wins` on the region
`"a\x00x\x00a\x00y\x00junk"`: five tokens, the dangling `"junk"` is dropped,
and the duplicate key `"a"` resolves to its last value `"y"`. -/
theorem long_query_kv_odd_drop_last_write_wins_sample :
    kvTokens (strBytes "a" ++ [0] ++ strBytes "x" ++ [0] ++ strBytes "a" ++ [0] ++
        strBytes "y" ++ [0] ++ strBytes "junk") =
      [strBytes "a", strBytes "x", strBytes "a", strBytes "y"] ∧
    mapGet (kvMapOf (strBytes "a" ++ [0] ++ strBytes "x" ++ [0] ++ strBytes "a" ++ [0] ++
        strBytes "y" ++ [0] ++ strBytes "junk")) (strBytes "a") = some (strBytes "y") := by
  have h := long_query_kv_odd_drop_last_write_wins
    (strBytes "a" ++ [0] ++ strBytes "x" ++ [0] ++ strBytes "a" ++ [0] ++
      strBytes "y" ++ [0] ++ strBytes "junk") (strBytes "a") (by decide)
  refine ⟨by rw [h.1]; decide, by rw [h.2]; decide⟩

/-- C8: a response whose leading byte is not the expected packet type makes the
operation return its mismatch error without parsing any field:
`gen_challenge_token` errors on any leading byte other than `0x09`, and
`short_query` and `long_query` (for every player-section key) error on any
leading byte other than `0x00`. -/
theorem packet_type_mismatch_errors (dg : List Nat) :
    (dg.headD 0 ≠ packetHANDSHAKE →
      genChallengeDecode dg =
        .error "Wrong packet received perhaps an already opened session? (expected 0x01 Handshake)") ∧
    (dg.headD 0 ≠ packetSTAT →
      shortQueryDecode dg =
        .error "Unexpected packet was received while awaiting 0x00 STAT") ∧
    (∀ key, dg.headD 0 ≠ packetSTAT →
      longQueryDecode dg key =
        .error "Unexpected packet was received while awaiting 0x00 STAT") := by
  refine ⟨?_, ?_, ?_⟩
  · intro h
    simp only [genChallengeDecode, scratchRecv_headD _ _ (show (0:Nat) < 16383 by omega)]
    rw [if_neg h]
  · intro h
    simp only [shortQueryDecode, scratchRecv_headD _ _ (show (0:Nat) < 65535 by omega)]
    rw [if_neg h]
  · intro key h
    simp only [longQueryDecode, scratchRecv_headD _ _ (show (0:Nat) < 65535 by omega)]
    rw [if_neg h]

/-- C8 witness: a Stat response with leading byte `0x09` makes both stat
decoders error, and a Handshake response with leading byte `0x00` makes the
challenge decoder error. -/
theorem packet_type_mismatch_errors_sample :
    shortQueryDecode [9] =
      .error "Unexpected packet was received while awaiting 0x00 STAT" ∧
    longQueryDecode [9] [0, 1] =
      .error "Unexpected packet was received while awaiting 0x00 STAT" ∧
    genChallengeDecode [0] =
      .error "Wrong packet received perhaps an already opened session? (expected 0x01 Handshake)" :=
  ⟨(packet_type_mismatch_errors [9]).2.1 (by decide),
   (packet_type_mismatch_errors [9]).2.2 [0, 1] (by decide),
   (packet_type_mismatch_errors [0]).1 (by decide)⟩

/-- C9: the Handshake request for session id `S` is the magic `0xFEFD`
big-endian, the type byte `0x09`, and `S` masked with `0x0F0F0F0F` as four
big-endian bytes; and decoding a synthetic Handshake response that carries any
i32 token `T` ASCII-decimal-encoded and null-terminated at offset 5 yields
exactly `T`. -/
theorem handshake_roundtrip (S T : Int) (e1 e2 e3 e4 : Nat)
    (hlo : -(2 ^ 31) ≤ T) (hhi : T < 2 ^ 31) :
    encodeHandshake S =
      [0xFE, 0xFD, 0x09] ++ be32 (Nat.land (twosComp32 S) 0x0F0F0F0F) ∧
    genChallengeDecode (9 :: e1 :: e2 :: e3 :: e4 :: (asciiDecInt T ++ [0])) =
      .ok T := by
  constructor
  · rfl
  · set d := asciiDecInt T with hd
    set dg : List Nat := 9 :: e1 :: e2 :: e3 :: e4 :: (d ++ [0]) with hdg
    have hdlen : d.length ≤ 11 := asciiDecInt_length_le T hlo hhi
    have hdglen : dg.length = d.length + 6 := by simp [hdg]
    have hle : dg.length ≤ 16383 := by omega
    have hrl : recvLen 16383 dg = dg.length := by
      simp only [recvLen]
      omega
    have hhead : (scratchRecv 16383 dg).headD 0 = 9 := by
      rw [scratchRecv_headD _ _ (by omega)]
      rfl
    have hbuf : scratchRecv 16383 dg =
        dg ++ List.replicate (16383 - dg.length) 0 := scratchRecv_eq _ _ hle
    have hslice : sliceExcl (scratchRecv 16383 dg) 5 (dg.length - 1) = some d := by
      rw [hbuf]
      unfold sliceExcl
      rw [if_pos]
      · have hdrop : (dg ++ List.replicate (16383 - dg.length) 0).drop 5 =
            d ++ ([0] ++ List.replicate (16383 - dg.length) 0) := by
          rw [hdg]
          simp [List.cons_append, List.append_assoc]
        rw [hdrop]
        have hn : dg.length - 1 - 5 = d.length := by omega
        rw [hn, List.take_left d ([0] ++ List.replicate (16383 - dg.length) 0)]
      · constructor
        · omega
        · rw [List.length_append, List.length_replicate]
          omega
    simp only [genChallengeDecode, hhead, packetHANDSHAKE, if_pos, hrl, hslice,
      parseI32_asciiDecInt T hlo hhi]

/-- C9 witness: the response bytes `[0x09, 0, 0, 0, 0, '4', '2', 0x00]` decode
to the challenge token 42, by `handshake_roundtrip` at `T = 42`. -/
theorem handshake_roundtrip_sample :
    genChallengeDecode [0x09, 0, 0, 0, 0, 52, 50, 0] = .ok 42 := by
  have h := (handshake_roundtrip 0 42 0 0 0 0 (by omega) (by omega)).2
  have he : asciiDecInt 42 = [52, 50] := by decide
  rw [he] at h
  exact h

/-- C10: for a datagram of `len` bytes (shorter than the 65535-byte scratch
buffer), the inclusive payload slices `buf[35..=len]` of `raknet_ping` and
`buf[16..=len]` of `long_query` extend one position past the last datagram
byte, so the decoded region is the datagram's tail plus one trailing zero byte
of untouched scratch; when `len` equals the scratch-buffer size 65535, the
inclusive upper index is out of bounds and the slice panics. -/
theorem inclusive_slice_off_by_one (dg : List Nat) :
    (35 ≤ dg.length → dg.length < 65535 →
      raknetPayloadSlice dg = some (dg.drop 35 ++ [0])) ∧
    (16 ≤ dg.length → dg.length < 65535 →
      longQueryDataSlice dg = some (dg.drop 16 ++ [0])) ∧
    (65535 ≤ dg.length →
      raknetPayloadSlice dg = none ∧ longQueryDataSlice dg = none) :=
  ⟨fun hc1 hc2 => sliceIncl_scratch 65535 35 dg hc1 hc2,
   fun hc1 hc2 => sliceIncl_scratch 65535 16 dg hc1 hc2,
   fun hc => ⟨sliceIncl_scratch_oob 65535 35 dg hc, sliceIncl_scratch_oob 65535 16 dg hc⟩⟩

/-- C10 witness: `inclusive_slice_off_by_one` at a 40-byte datagram (the slice
gains one trailing zero) and at a 65535-byte datagram (the slice is out of
bounds). -/
theorem inclusive_slice_off_by_one_sample :
    raknetPayloadSlice (List.replicate 40 7) = some (List.replicate 5 7 ++ [0]) ∧
    raknetPayloadSlice (List.replicate 65535 7) = none := by
  constructor
  · have h := (inclusive_slice_off_by_one (List.replicate 40 7)).1
      (by simp only [List.length_replicate]; omega)
      (by simp only [List.length_replicate]; omega)
    rw [h]
    decide
  · exact ((inclusive_slice_off_by_one (List.replicate 65535 7)).2.2
      (by simp only [List.length_replicate]; omega)).1
